import Mathlib

/-!
# Verification of the CAISO reshape-and-merge pipeline

A shallow embedding of the data-transformation core of
`src/caiso_last_hour.py`: the functions `process_lmp_data`,
`process_renewable_data`, `process_total_generation_data`,
`merge_generation_data` and `merge_lmp_with_generation`, together with the
fragments of pandas semantics they rely on (column selection, `Series.map`
over a dict, `pivot_table` with `aggfunc="first"`, `groupby`/`sum`/`mean`,
`pivot`, `DataFrame.get` with a scalar default, `fillna`, `merge` with
`how="inner"`/`how="outer"` and the default `_x`/`_y` collision suffixes,
and `sort_values`).

Modelling conventions:
* Timestamps (`INTERVALSTARTTIME_GMT`, already parsed by `pd.to_datetime`)
  are modelled as integers.
* Numeric values (`MW` and derived quantities) are rationals; a cell of a
  wide table is an `Option ℚ`, with `none` playing the role of pandas
  `NaN` / a missing value (pandas arithmetic propagates `NaN`; so do the
  cell operations below).
* Row order produced by `groupby`/`pivot` key enumeration is modelled with
  `List.dedup` (one row per distinct key); pandas sorts group keys, but no
  property below depends on the enumeration order of distinct keys.
  `sort_values` is modelled by a stable insertion sort.
-/

namespace Caiso

/-! ## Cells -/

/-- A value cell of a wide table. `none` models pandas `NaN`. -/
abbrev Cell := Option ℚ

/-- Cell addition with `NaN` propagation, as in pandas `+`. -/
def addQCell : Cell → Cell → Cell
  | some a, some b => some (a + b)
  | _, _ => none

/-- Cell subtraction with `NaN` propagation, as in pandas `-`. -/
def subQCell : Cell → Cell → Cell
  | some a, some b => some (a - b)
  | _, _ => none

/-- Model of `fillna(0)` on one cell. -/
def fillCell : Cell → Cell
  | none => some 0
  | some v => some v

/-! ## Rows and wide tables keyed by timestamp -/

/-- A row of a timestamp-keyed wide table: the key plus named value cells. -/
structure WRow where
  ts : Int
  cells : List (String × Cell)
deriving DecidableEq, Repr

/-- Column access inside a row: the first cell with the given name; a name
with no cell behaves as `NaN` (the column, if it exists at table level, has
no stored value in this row). -/
def WRow.get (r : WRow) (c : String) : Cell :=
  match r.cells.lookup c with
  | some v => v
  | none => none

/-- A wide table keyed by timestamp: the non-key column names and the rows. -/
structure WTable where
  cols : List String
  rows : List WRow
deriving DecidableEq, Repr

/-- The list of timestamps of a table's rows, in row order. -/
def WTable.tsList (t : WTable) : List Int := t.rows.map WRow.ts

/-- Model of `DataFrame.get(c, default)` evaluated at one row: the stored cell when
the column exists in the table, otherwise the scalar default broadcast to
every row. -/
def dfGet (t : WTable) (c : String) (d : ℚ) (r : WRow) : Cell :=
  if c ∈ t.cols then r.get c else some d

/-- Column assignment `df[c] = v` at row level: any previous cell named `c`
is dropped and the new cell appended. -/
def setCell (cells : List (String × Cell)) (c : String) (v : Cell) :
    List (String × Cell) :=
  cells.filter (fun p => p.1 != c) ++ [(c, v)]

/-- Column assignment `df[c] = ...` at table level: `c` is appended to the
column list if new (kept once otherwise). -/
def setCol (cols : List String) (c : String) : List String :=
  cols.filter (fun c0 => c0 != c) ++ [c]

/-! ## A stable sort usable by the kernel (model of `sort_values`) -/

/-- Insert into a sorted list, keeping existing elements first on ties. -/
def insertLe (le : α → α → Bool) (x : α) : List α → List α
  | [] => [x]
  | y :: ys => if le x y then x :: y :: ys else y :: insertLe le x ys

/-- Stable insertion sort: the model of pandas `sort_values`. -/
def sortLe (le : α → α → Bool) : List α → List α
  | [] => []
  | x :: xs => insertLe le x (sortLe le xs)

/-! ## pandas `merge` on the timestamp key -/

/-- Join policy of `pd.merge`: `how="inner"` or `how="outer"`. -/
inductive How
  | inner
  | outer
deriving DecidableEq, Repr

/-- The default pandas collision handling: a non-key column name occurring
on both sides of a merge gets a suffix (`_x` left, `_y` right). -/
def suffixShared (shared : List String) (sfx : String) (c : String) : String :=
  if c ∈ shared then c ++ sfx else c

/-- Apply the collision suffix to the cell names of one row's payload. -/
def suffixCells (shared : List String) (sfx : String)
    (cells : List (String × Cell)) : List (String × Cell) :=
  cells.map (fun p => (suffixShared shared sfx p.1, p.2))

/-- The non-key column names occurring on both sides of a merge (the names
pandas will suffix). -/
def mergeShared (A B : WTable) : List String :=
  A.cols.filter (fun c => c ∈ B.cols)

/-- The output column list of `pd.merge`: both sides' non-key columns,
collision names suffixed. -/
def mergeCols (A B : WTable) : List String :=
  A.cols.map (suffixShared (mergeShared A B) "_x") ++
    B.cols.map (suffixShared (mergeShared A B) "_y")

/-- The rows produced by key matches: for each left row, one output row per
right row with an equal timestamp, carrying both payloads. -/
def mergeMatched (A B : WTable) : List WRow :=
  A.rows.flatMap (fun ra =>
    (B.rows.filter (fun rb => rb.ts == ra.ts)).map (fun rb =>
      WRow.mk ra.ts (suffixCells (mergeShared A B) "_x" ra.cells ++
                     suffixCells (mergeShared A B) "_y" rb.cells)))

/-- Left rows with no key match on the right; their right-side cells are
absent and hence behave as `NaN`. -/
def mergeLeftOnly (A B : WTable) : List WRow :=
  (A.rows.filter (fun ra =>
      !(B.rows.any (fun rb => rb.ts == ra.ts)))).map (fun ra =>
    WRow.mk ra.ts (suffixCells (mergeShared A B) "_x" ra.cells))

/-- Right rows with no key match on the left; their left-side cells are
absent and hence behave as `NaN`. -/
def mergeRightOnly (A B : WTable) : List WRow :=
  (B.rows.filter (fun rb =>
      !(A.rows.any (fun ra => ra.ts == rb.ts)))).map (fun rb =>
    WRow.mk rb.ts (suffixCells (mergeShared A B) "_y" rb.cells))

/-- Model of `pd.merge(A, B, on=ts-key, how=how)`.  Non-key columns with the same
name on both sides are silently renamed with the default `_x`/`_y`
suffixes; matching is on equal timestamps.  For `outer`, unmatched rows of
either side carry no cells of the other side (their cells behave as `NaN`),
and the result is sorted by key, as pandas does for outer joins. -/
def mergeOn (A B : WTable) (how : How) : WTable :=
  match how with
  | How.inner => WTable.mk (mergeCols A B) (mergeMatched A B)
  | How.outer =>
    WTable.mk (mergeCols A B)
      (sortLe (fun a b => decide (a.ts ≤ b.ts))
        (mergeMatched A B ++ mergeLeftOnly A B ++ mergeRightOnly A B))

/-! ## Renewable generation feed (`process_renewable_data`) -/

/-- A raw row of the `SLD_REN_FCST` feed, restricted to the columns the
pipeline reads. -/
structure RenRow where
  ts : Int
  market_run_id : String
  renewable_type : String
  mw : ℚ
deriving DecidableEq, Repr

/-- The pre-pivot filter of `process_renewable_data`: time window lower
bound and `MARKET_RUN_ID == "RTD"`. -/
def renFilter (raws : List RenRow) (start : Int) : List RenRow :=
  raws.filter (fun r => decide (start ≤ r.ts) && (r.market_run_id == "RTD"))

/-- The distinct `(timestamp, RENEWABLE_TYPE)` group keys of the filtered
feed (`groupby(["INTERVALSTARTTIME_GMT", "RENEWABLE_TYPE"])`). -/
def renKeys (raws : List RenRow) (start : Int) : List (Int × String) :=
  ((renFilter raws start).map (fun r => (r.ts, r.renewable_type))).dedup

/-- The `sum` reducer applied to the `MW` column of one group. -/
def renSum (raws : List RenRow) (start : Int) (k : Int × String) : ℚ :=
  (((renFilter raws start).filter
      (fun r => (r.ts == k.1) && (r.renewable_type == k.2))).map RenRow.mw).sum

/-- Model of `groupby([...])["MW"].sum().reset_index()`: one entry per distinct
group key, carrying the summed value. -/
def renAgg (raws : List RenRow) (start : Int) : List ((Int × String) × ℚ) :=
  (renKeys raws start).map (fun k => (k, renSum raws start k))

/-- The distinct timestamps of the aggregated renewable data (the pivot's
row index). -/
def renTss (raws : List RenRow) (start : Int) : List Int :=
  ((renAgg raws start).map (fun p => p.1.1)).dedup

/-- The distinct renewable categories of the aggregated data (the pivot's
column set). -/
def renCats (raws : List RenRow) (start : Int) : List String :=
  ((renAgg raws start).map (fun p => p.1.2)).dedup

/-- Model of `pivot(index="INTERVALSTARTTIME_GMT", columns="RENEWABLE_TYPE",
values="MW")`: one row per distinct timestamp, one column per distinct
category; a (timestamp, category) pair with no aggregated entry is `NaN`. -/
def renPivot (raws : List RenRow) (start : Int) : WTable :=
  WTable.mk (renCats raws start)
    ((renTss raws start).map (fun t =>
      WRow.mk t ((renCats raws start).map (fun c =>
        (c, (renAgg raws start).lookup (t, c))))))

/-- Model of `df_agg["renewables_total"] = df_agg.get("Solar", 0) +
df_agg.get("Wind", 0)`: the sum of exactly the `Solar` and `Wind` columns,
a column missing from the table contributing the scalar `0`. -/
def addRenewablesTotal (t : WTable) : WTable :=
  WTable.mk (setCol t.cols "renewables_total")
    (t.rows.map (fun r =>
      WRow.mk r.ts (setCell r.cells "renewables_total"
        (addQCell (dfGet t "Solar" 0 r) (dfGet t "Wind" 0 r)))))

/-- Model of `df_agg.fillna(0)`. -/
def fillna0 (t : WTable) : WTable :=
  WTable.mk t.cols
    (t.rows.map (fun r =>
      WRow.mk r.ts (r.cells.map (fun p => (p.1, fillCell p.2)))))

/-- Model of `process_renewable_data`: filter, aggregate by (timestamp, type),
pivot to wide format, derive `renewables_total`, zero-fill. -/
def process_renewable_data (raws : List RenRow) (start : Int) : WTable :=
  fillna0 (addRenewablesTotal (renPivot raws start))

/-! ## Total system generation feed (`process_total_generation_data`) -/

/-- A raw row of the `ENE_SLRS` feed, restricted to the columns the
pipeline reads. -/
structure GenRow where
  ts : Int
  tac_zone_name : String
  slrs_type : String
  mw : ℚ
deriving DecidableEq, Repr

/-- The pre-aggregation filter of `process_total_generation_data`: time
window lower bound, `TAC_ZONE_NAME == "Caiso_Totals"`,
`SLRS_TYPE == "ALL"`. -/
def genFilter (raws : List GenRow) (start : Int) : List GenRow :=
  raws.filter (fun r =>
    decide (start ≤ r.ts) && (r.tac_zone_name == "Caiso_Totals") &&
      (r.slrs_type == "ALL"))

/-- The distinct timestamps of the filtered total-generation feed. -/
def genTss (raws : List GenRow) (start : Int) : List Int :=
  ((genFilter raws start).map GenRow.ts).dedup

/-- Model of `groupby("INTERVALSTARTTIME_GMT")["MW"].sum()` followed by the rename
of `MW` to `total_generation`: one row per distinct timestamp. -/
def process_total_generation_data (raws : List GenRow) (start : Int) :
    WTable :=
  WTable.mk ["total_generation"]
    ((genTss raws start).map (fun t =>
      WRow.mk t [("total_generation",
        some ((((genFilter raws start).filter
          (fun r => r.ts == t)).map GenRow.mw).sum))]))

/-! ## Merging the two generation tables (`merge_generation_data`) -/

/-- Model of `df_merged["thermal_and_other"] = df_merged.get("total_generation", 0)
- df_merged.get("renewables_total", 0)`: the derivation step of
`merge_generation_data`.  A referenced column absent from the table
contributes the scalar `0`; present columns keep pandas `NaN`
propagation. -/
def deriveThermal (t : WTable) : WTable :=
  WTable.mk (setCol t.cols "thermal_and_other")
    (t.rows.map (fun r =>
      WRow.mk r.ts (setCell r.cells "thermal_and_other"
        (subQCell (dfGet t "total_generation" 0 r)
                  (dfGet t "renewables_total" 0 r)))))

/-- Model of `merge_generation_data`: outer-merge the renewable table with the
total-generation table on the timestamp, then derive `thermal_and_other`.
(The rename of the timestamp column to `timestamp_utc` is structural in
this embedding: the key is a dedicated field.) -/
def merge_generation_data (dfRenewable dfTotal : WTable) : WTable :=
  deriveThermal (mergeOn dfRenewable dfTotal How.outer)

/-! ## LMP feed (`process_lmp_data`) -/

/-- A raw row of the `PRC_INTVL_LMP` feed, restricted to the columns kept
by the selection `df[["INTERVALSTARTTIME_GMT", "NODE", "LMP_TYPE",
"MW"]]`. -/
structure LmpRaw where
  ts : Int
  node : String
  lmp_type : String
  mw : ℚ
deriving DecidableEq, Repr

/-- A row of the processed LMP wide table: composite key (timestamp, hub)
plus the per-category price cells.  The hub is an `Option String` because
`Series.map` over the node dict can produce `NaN`. -/
structure LmpRow where
  ts : Int
  hub : Option String
  cells : List (String × Cell)
deriving DecidableEq, Repr

/-- Column access inside a processed LMP row (same lookup rule as
`WRow.get`). -/
def LmpRow.get (r : LmpRow) (c : String) : Cell :=
  match r.cells.lookup c with
  | some v => v
  | none => none

/-- The processed LMP wide table. -/
structure LmpTable where
  cols : List String
  rows : List LmpRow
deriving DecidableEq, Repr

/-- The time-window filter of `process_lmp_data`
(`df[df["INTERVALSTARTTIME_GMT"] >= start_time]`). -/
def lmpFilter (raws : List LmpRaw) (start : Int) : List LmpRaw :=
  raws.filter (fun r => decide (start ≤ r.ts))

/-- The distinct `(timestamp, NODE)` pairs of a raw LMP row list: the
pivot's row index. -/
def lmpKeys (rows : List LmpRaw) : List (Int × String) :=
  (rows.map (fun r => (r.ts, r.node))).dedup

/-- The distinct `LMP_TYPE` values of a raw LMP row list: the pivot's
column set. -/
def lmpCats (rows : List LmpRaw) : List String :=
  (rows.map LmpRaw.lmp_type).dedup

/-- The group of raw rows mapping to one `(timestamp, NODE, LMP_TYPE)`
triple, in original input order (`groupby` preserves intra-group order). -/
def lmpGroup (rows : List LmpRaw) (t : Int) (n : String) (c : String) :
    List LmpRaw :=
  rows.filter (fun r => (r.ts == t) && (r.node == n) && (r.lmp_type == c))

/-- Model of `pivot_table(index=["INTERVALSTARTTIME_GMT", "NODE"],
columns="LMP_TYPE", values="MW", aggfunc="first")`: one row per distinct
(timestamp, NODE) pair, one column per distinct `LMP_TYPE`; the cell is
the `MW` of the first group member (an empty group is `NaN`).  At this
stage the hub field still holds the raw `NODE` identifier. -/
def lmpPivot (rows : List LmpRaw) : LmpTable :=
  LmpTable.mk (lmpCats rows)
    ((lmpKeys rows).map (fun k =>
      LmpRow.mk k.1 (some k.2) ((lmpCats rows).map (fun c =>
        (c, ((lmpGroup rows k.1 k.2 c).head?).map LmpRaw.mw)))))

/-- The column rename map of `process_lmp_data` (`LMP → lmp_total`,
`MCC → congestion`, `MCE → energy`, `MCL → loss`; other names pass
through). -/
def lmpRename (c : String) : String :=
  if c = "LMP" then "lmp_total"
  else if c = "MCC" then "congestion"
  else if c = "MCE" then "energy"
  else if c = "MCL" then "loss"
  else c

/-- The configured node label map (`CONFIG["nodes"]`). -/
def CONFIG_nodes : List (String × String) :=
  [("TH_SP15_GEN-APND", "SP15"),
   ("TH_NP15_GEN-APND", "NP15"),
   ("TH_ZP26_GEN-APND", "ZP26")]

/-- Model of `df["hub"].map(CONFIG["nodes"])`: pandas `Series.map` over a dict
replaces a value by its image and maps values missing from the dict (and
`NaN`) to `NaN`. -/
def mapHub (h : Option String) : Option String :=
  h.bind (fun n => CONFIG_nodes.lookup n)

/-- Row order for `sort_values(["timestamp_utc", "hub"])`: by timestamp,
then by hub with `NaN` last (pandas `na_position="last"`). -/
def lmpRowLe (a b : LmpRow) : Bool :=
  decide (a.ts < b.ts) ||
    ((a.ts == b.ts) &&
      (match a.hub, b.hub with
       | none, none => true
       | none, some _ => false
       | some _, none => true
       | some x, some y => decide (x < y) || (x == y)))

/-- Model of `process_lmp_data`: filter to the window, pivot with first-wins,
rename the price columns, map the node identifiers to hub labels, sort. -/
def process_lmp_data (raws : List LmpRaw) (start : Int) : LmpTable :=
  let p := lmpPivot (lmpFilter raws start)
  LmpTable.mk (p.cols.map lmpRename)
    (sortLe lmpRowLe
      (p.rows.map (fun r =>
        LmpRow.mk r.ts (mapHub r.hub)
          (r.cells.map (fun q => (lmpRename q.1, q.2))))))

/-! ## Final merge (`merge_lmp_with_generation`) -/

/-- The columns selected before the hub average:
`df_lmp[["timestamp_utc", "lmp_total", "congestion", "energy",
"loss"]]`. -/
def lmpValueCols : List String :=
  ["lmp_total", "congestion", "energy", "loss"]

/-- The `mean` reducer over the cells of one group, pandas-style: `NaN`
entries are skipped, and a group with no non-`NaN` entry is `NaN`. -/
def meanCell (cs : List Cell) : Cell :=
  let vs := cs.filterMap id
  if vs.isEmpty then none else some (vs.sum / (vs.length : ℚ))

/-- Model of the column selection `df_lmp[["timestamp_utc", "lmp_total",
"congestion", "energy", "loss"]]`: pandas raises a `KeyError` when a
requested label is absent from the frame, modelled by `none`; when every
price column exists, the result keeps only the timestamp key and those
columns (the hub column is dropped), with each row's stored cells read
through (a cell missing from a row is `NaN`). -/
def lmpSelect (t : LmpTable) : Option WTable :=
  if ∀ c ∈ lmpValueCols, c ∈ t.cols then
    some (WTable.mk lmpValueCols
      (t.rows.map (fun r =>
        WRow.mk r.ts (lmpValueCols.map (fun c => (c, LmpRow.get r c))))))
  else none

/-- Model of `groupby("timestamp_utc").mean()` over the selected price
columns: one row per distinct timestamp, averaging each column across
hubs. -/
def lmpAggregate (t : WTable) : WTable :=
  WTable.mk lmpValueCols
    (((t.rows.map WRow.ts).dedup).map (fun ts0 =>
      WRow.mk ts0 (lmpValueCols.map (fun c =>
        (c, meanCell ((t.rows.filter (fun r => r.ts == ts0)).map
          (fun r => r.get c)))))))

/-- Model of `merge_lmp_with_generation`: select the price columns (a
`KeyError`, i.e. `none`, when one is missing), average across hubs by
timestamp, inner-merge with the generation table on the timestamp, sort
by timestamp.  Returns the combined table and the aggregated LMP table.
(The rename of the timestamp column to `timestamp_utc_interval` is
structural in this embedding.) -/
def merge_lmp_with_generation (dfLmp : LmpTable) (dfGeneration : WTable) :
    Option (WTable × WTable) :=
  (lmpSelect dfLmp).map (fun sel =>
    let dfLmpAgg := lmpAggregate sel
    let combined := mergeOn dfLmpAgg dfGeneration How.inner
    (WTable.mk combined.cols
        (sortLe (fun a b => decide (a.ts ≤ b.ts)) combined.rows),
     dfLmpAgg))

/-- The cell that `df_agg.get(c, 0)` reads at the pivot row of timestamp
`t`: the aggregated (timestamp, category) value when the category column
exists (`NaN` when that group is absent), and the scalar zero when the
column does not exist at all. -/
def renGet0 (raws : List RenRow) (start : Int) (t : Int) (c : String) :
    Cell :=
  if c ∈ renCats raws start then (renAgg raws start).lookup (t, c)
  else some 0

/-! ## Concrete fixtures used by counterexamples and witnesses -/

/-- A processed renewable-side table with a single row at timestamp 1. -/
def renTable1 : WTable :=
  WTable.mk ["renewables_total"] [WRow.mk 1 [("renewables_total", some 8)]]

/-- A processed total-generation table with a single row at timestamp 2. -/
def totTable2 : WTable :=
  WTable.mk ["total_generation"] [WRow.mk 2 [("total_generation", some 12)]]

/-- A left merge input carrying a non-key column named `v`. -/
def leftV : WTable := WTable.mk ["v"] [WRow.mk 1 [("v", some 2)]]

/-- A right merge input also carrying a non-key column named `v`. -/
def rightV : WTable := WTable.mk ["v"] [WRow.mk 1 [("v", some 3)]]

/-- A wide table with timestamp key set {1, 2, 3}. -/
def tableA123 : WTable :=
  WTable.mk ["a"]
    [WRow.mk 1 [("a", some 1)], WRow.mk 2 [("a", some 2)],
     WRow.mk 3 [("a", some 3)]]

/-- A wide table with timestamp key set {2, 3, 4}. -/
def tableB234 : WTable :=
  WTable.mk ["b"]
    [WRow.mk 2 [("b", some 2)], WRow.mk 3 [("b", some 3)],
     WRow.mk 4 [("b", some 4)]]

/-- One raw LMP row whose NODE is not a key of the configured label map. -/
def fooLmpRaws : List LmpRaw := [LmpRaw.mk 100 "FOO" "LMP" 5]

/-- Two raw LMP rows at the same timestamp with two distinct unmapped
NODE identifiers. -/
def dupNodeLmpRaws : List LmpRaw :=
  [LmpRaw.mk 1 "FOO" "LMP" 2, LmpRaw.mk 1 "BAR" "LMP" 3]

/-- Two raw LMP rows mapping to the same (timestamp, NODE, LMP_TYPE)
triple with different MW values. -/
def dupTripleLmpRaws : List LmpRaw :=
  [LmpRaw.mk 1 "N" "LMP" 5, LmpRaw.mk 1 "N" "LMP" 7]

/-- Two raw LMP rows at one timestamp whose NODEs are both configured. -/
def mappedLmpRaws : List LmpRaw :=
  [LmpRaw.mk 1 "TH_SP15_GEN-APND" "LMP" 2, LmpRaw.mk 1 "TH_NP15_GEN-APND" "LMP" 3]

/-- The row of `totOnlyTable`. -/
def totOnlyRow : WRow := WRow.mk 5 [("total_generation", some 12)]

/-- A merged generation table carrying only the total column (every
subcomponent column absent). -/
def totOnlyTable : WTable := WTable.mk ["total_generation"] [totOnlyRow]

/-- A processed LMP table whose only timestamp is 1. -/
def lmpTable1 : LmpTable :=
  LmpTable.mk lmpValueCols
    [LmpRow.mk 1 (some "SP15")
      [("lmp_total", some 10), ("congestion", some 1), ("energy", some 8),
       ("loss", some 1)]]

/-- A raw renewable feed whose only row fails the `MARKET_RUN_ID == "RTD"`
equality pre-filter. -/
def damRenRaws : List RenRow := [RenRow.mk 50 "DAM" "Solar" 5]

/-- A raw LMP feed whose only row lies below the window start bound 0. -/
def staleLmpRaws : List LmpRaw := [LmpRaw.mk (-5) "TH_SP15_GEN-APND" "LMP" 4]

/-- The renewable rows of the worked example: Solar 5, Wind 3 and a third
category Geothermal 7, all at timestamp 10. -/
def exRen : List RenRow :=
  [RenRow.mk 10 "RTD" "Solar" 5, RenRow.mk 10 "RTD" "Wind" 3,
   RenRow.mk 10 "RTD" "Geothermal" 7]

/-- The total-generation rows of the worked example: 12 at timestamp 10. -/
def exTot : List GenRow := [GenRow.mk 10 "Caiso_Totals" "ALL" 12]

/-- The per-row modification used to express that a column plays no role
in a result: a row of a category other than Solar and Wind gets an
arbitrary new MW value, rows of Solar and Wind are untouched. -/
def perturbRow (g : RenRow → ℚ) (r : RenRow) : RenRow :=
  if r.renewable_type = "Solar" ∨ r.renewable_type = "Wind" then r
  else RenRow.mk r.ts r.market_run_id r.renewable_type (g r)

/-- Perturb every non-Solar, non-Wind row of a raw renewable feed. -/
def perturbOther (g : RenRow → ℚ) (raws : List RenRow) : List RenRow :=
  raws.map (perturbRow g)

/-! ## Permutation facts about the sort model -/

theorem insertLe_perm (le : α → α → Bool) (x : α) (l : List α) :
    (insertLe le x l).Perm (x :: l) := by
  induction l with
  | nil => exact List.Perm.refl _
  | cons y ys ih =>
    simp only [insertLe]
    by_cases h : le x y = true
    · simp [h]
    · simp only [h, if_false]
      exact (ih.cons y).trans (List.Perm.swap x y ys)

theorem sortLe_perm (le : α → α → Bool) (l : List α) :
    (sortLe le l).Perm l := by
  induction l with
  | nil => exact List.Perm.refl _
  | cons x xs ih =>
    exact (insertLe_perm le x (sortLe le xs)).trans (ih.cons x)

theorem mem_sortLe (le : α → α → Bool) (a : α) (l : List α) :
    a ∈ sortLe le l ↔ a ∈ l :=
  (sortLe_perm le l).mem_iff

/-! ## Association-list lookup helpers -/

theorem lookup_cons_fst [BEq α] [LawfulBEq α] (p : α × β)
    (l : List (α × β)) : (p :: l).lookup p.1 = some p.2 := by
  obtain ⟨k, v⟩ := p
  simp [List.lookup]

theorem lookup_cons_ne [BEq α] [LawfulBEq α] (p : α × β) (k0 : α)
    (l : List (α × β)) (h : k0 ≠ p.1) :
    (p :: l).lookup k0 = l.lookup k0 := by
  obtain ⟨k, v⟩ := p
  simp only [] at h
  simp [List.lookup, beq_false_of_ne h]

theorem lookup_map_snd (g : γ → β) (l : List (String × γ)) (k : String) :
    (l.map (fun p => (p.1, g p.2))).lookup k = (l.lookup k).map g := by
  induction l with
  | nil => rfl
  | cons p ps ih =>
    obtain ⟨k1, v1⟩ := p
    by_cases h : k = k1
    · subst h; simp [List.lookup]
    · simpa [List.lookup, beq_false_of_ne h] using ih

theorem lookup_map_key [BEq α] [LawfulBEq α] [DecidableEq α]
    (l : List α) (f : α → β) (k : α) :
    (l.map (fun x => (x, f x))).lookup k =
      if k ∈ l then some (f k) else none := by
  induction l with
  | nil => rfl
  | cons x xs ih =>
    by_cases h : k = x
    · subst h; simp [List.lookup]
    · simpa [List.lookup, beq_false_of_ne h, h] using ih

theorem lookup_not_mem [BEq α] [LawfulBEq α] (l : List (α × β)) (k : α)
    (h : k ∉ l.map Prod.fst) : l.lookup k = none := by
  induction l with
  | nil => rfl
  | cons p ps ih =>
    simp only [List.map_cons, List.mem_cons, not_or] at h
    rw [lookup_cons_ne p k ps h.1]
    exact ih h.2

theorem lookup_setCell_self (cells : List (String × Cell)) (c : String)
    (v : Cell) : (setCell cells c v).lookup c = some v := by
  induction cells with
  | nil => simp [setCell, List.lookup]
  | cons p ps ih =>
    by_cases h : p.1 = c
    · simpa [setCell, List.filter_cons, h] using ih
    · have hb : (p.1 != c) = true := by simpa using h
      have hstep : setCell (p :: ps) c v = p :: setCell ps c v := by
        simp [setCell, List.filter_cons, hb]
      rw [hstep, lookup_cons_ne p c (setCell ps c v) (Ne.symm h)]
      exact ih

theorem lookup_setCell_ne (cells : List (String × Cell)) (c c0 : String)
    (v : Cell) (h : c0 ≠ c) :
    (setCell cells c v).lookup c0 = cells.lookup c0 := by
  induction cells with
  | nil => simp [setCell, List.lookup, beq_false_of_ne h]
  | cons p ps ih =>
    by_cases hp : p.1 = c
    · have hstep : setCell (p :: ps) c v = setCell ps c v := by
        simp [setCell, List.filter_cons, hp]
      rw [hstep, ih, lookup_cons_ne p c0 ps (fun hcc => h (hcc.trans hp))]
    · have hb : (p.1 != c) = true := by simpa using hp
      have hstep : setCell (p :: ps) c v = p :: setCell ps c v := by
        simp [setCell, List.filter_cons, hb]
      rw [hstep]
      by_cases hc : c0 = p.1
      · obtain ⟨k1, v1⟩ := p
        simp only [] at hc
        subst hc
        simp [List.lookup]
      · rw [lookup_cons_ne p c0 (setCell ps c v) hc,
          lookup_cons_ne p c0 ps hc]
        exact ih

theorem find_eq_headFilter (p : α → Bool) (l : List α) :
    l.find? p = (l.filter p).head? := by
  induction l with
  | nil => rfl
  | cons x xs ih =>
    by_cases h : p x
    · rw [List.find?_cons_of_pos _ h, List.filter_cons_of_pos h,
        List.head?_cons]
    · rw [List.find?_cons_of_neg _ h, List.filter_cons_of_neg h, ih]

/-! ## Timestamp sets of the merge components -/

theorem mem_ts_mergeMatched (A B : WTable) (t : Int) :
    t ∈ (mergeMatched A B).map WRow.ts ↔ t ∈ A.tsList ∧ t ∈ B.tsList := by
  simp only [mergeMatched, WTable.tsList, List.mem_map, List.mem_flatMap,
    List.mem_filter, beq_iff_eq]
  constructor
  · rintro ⟨r, ⟨ra, hra, rb, ⟨hrb, hts⟩, rfl⟩, rfl⟩
    exact ⟨⟨ra, hra, rfl⟩, ⟨rb, hrb, hts⟩⟩
  · rintro ⟨⟨ra, hra, rfl⟩, ⟨rb, hrb, hts⟩⟩
    exact ⟨WRow.mk ra.ts (suffixCells (mergeShared A B) "_x" ra.cells ++
      suffixCells (mergeShared A B) "_y" rb.cells),
      ⟨ra, hra, rb, ⟨hrb, hts⟩, rfl⟩, rfl⟩

theorem mem_ts_mergeLeftOnly (A B : WTable) (t : Int) :
    t ∈ (mergeLeftOnly A B).map WRow.ts ↔
      (t ∈ A.tsList ∧ t ∉ B.tsList) := by
  simp only [mergeLeftOnly, WTable.tsList, List.map_map, List.mem_map,
    List.mem_filter, Function.comp, Bool.not_eq_true', List.any_eq_false,
    beq_iff_eq]
  constructor
  · rintro ⟨ra, ⟨hra, hno⟩, rfl⟩
    refine ⟨⟨ra, hra, rfl⟩, ?_⟩
    rintro ⟨rb, hrb, hts⟩
    exact hno rb hrb hts
  · rintro ⟨⟨ra, hra, rfl⟩, hnot⟩
    exact ⟨ra, ⟨hra, fun rb hrb hts => hnot ⟨rb, hrb, hts⟩⟩, rfl⟩

theorem mem_ts_mergeRightOnly (A B : WTable) (t : Int) :
    t ∈ (mergeRightOnly A B).map WRow.ts ↔
      (t ∈ B.tsList ∧ t ∉ A.tsList) := by
  simp only [mergeRightOnly, WTable.tsList, List.map_map, List.mem_map,
    List.mem_filter, Function.comp, Bool.not_eq_true', List.any_eq_false,
    beq_iff_eq]
  constructor
  · rintro ⟨rb, ⟨hrb, hno⟩, rfl⟩
    refine ⟨⟨rb, hrb, rfl⟩, ?_⟩
    rintro ⟨ra, hra, hts⟩
    exact hno ra hra hts
  · rintro ⟨⟨rb, hrb, rfl⟩, hnot⟩
    exact ⟨rb, ⟨hrb, fun ra hra hts => hnot ⟨ra, hra, hts⟩⟩, rfl⟩

theorem tsList_mergeOn_inner (A B : WTable) (t : Int) :
    t ∈ (mergeOn A B How.inner).tsList ↔ t ∈ A.tsList ∧ t ∈ B.tsList := by
  simpa [mergeOn, WTable.tsList] using mem_ts_mergeMatched A B t

theorem tsList_mergeOn_outer (A B : WTable) (t : Int) :
    t ∈ (mergeOn A B How.outer).tsList ↔ t ∈ A.tsList ∨ t ∈ B.tsList := by
  have hurows : (mergeOn A B How.outer).tsList =
      (sortLe (fun a b => decide (a.ts ≤ b.ts))
        (mergeMatched A B ++ mergeLeftOnly A B ++ mergeRightOnly A B)).map
          WRow.ts := rfl
  rw [hurows]
  rw [List.mem_map]
  constructor
  · rintro ⟨r, hr, rfl⟩
    rw [mem_sortLe] at hr
    rcases List.mem_append.mp hr with hr | hr
    · rcases List.mem_append.mp hr with hr | hr
      · have := (mem_ts_mergeMatched A B r.ts).mp (List.mem_map_of_mem _ hr)
        exact Or.inl this.1
      · have := (mem_ts_mergeLeftOnly A B r.ts).mp (List.mem_map_of_mem _ hr)
        exact Or.inl this.1
    · have := (mem_ts_mergeRightOnly A B r.ts).mp (List.mem_map_of_mem _ hr)
      exact Or.inr this.1
  · intro h
    have : t ∈ (mergeMatched A B ++ mergeLeftOnly A B ++
        mergeRightOnly A B).map WRow.ts := by
      rcases h with hA | hB
      · by_cases hB2 : t ∈ B.tsList
        · have := (mem_ts_mergeMatched A B t).mpr ⟨hA, hB2⟩
          simp only [List.map_append, List.mem_append]
          exact Or.inl (Or.inl this)
        · have := (mem_ts_mergeLeftOnly A B t).mpr ⟨hA, hB2⟩
          simp only [List.map_append, List.mem_append]
          exact Or.inl (Or.inr this)
      · by_cases hA2 : t ∈ A.tsList
        · have := (mem_ts_mergeMatched A B t).mpr ⟨hA2, hB⟩
          simp only [List.map_append, List.mem_append]
          exact Or.inl (Or.inl this)
        · have := (mem_ts_mergeRightOnly A B t).mpr ⟨hB, hA2⟩
          simp only [List.map_append, List.mem_append]
          exact Or.inr this
    rcases List.mem_map.mp this with ⟨r, hr, rfl⟩
    exact ⟨r, (mem_sortLe _ _ _).mpr hr, rfl⟩

theorem tsList_deriveThermal (t : WTable) :
    (deriveThermal t).tsList = t.tsList := by
  simp [deriveThermal, WTable.tsList, List.map_map, Function.comp]

/-! ## Claim C1 -/

/-- C1 counterexample: outer-merging a renewable table whose only
timestamp is 1 with a total-generation table whose only timestamp is 2
produces a merged generation table containing a null (`NaN`) cell in the
existing column `total_generation` (at the row driven by the renewable
side), and a null cell in `thermal_and_other` as well — refuting the
claim that missing-side cells are zero and never null. -/
theorem C1_counterexample :
    "total_generation" ∈ (merge_generation_data renTable1 totTable2).cols ∧
    (merge_generation_data renTable1 totTable2).rows.map
      (fun r => WRow.get r "total_generation") = [none, some 12] ∧
    (merge_generation_data renTable1 totTable2).rows.map
      (fun r => WRow.get r "thermal_and_other") = [none, none] := by
  refine ⟨?_, ?_, ?_⟩
  · decide
  · decide
  · decide

/-- C1 amended: after the outer merge of the renewable and
total-generation tables, every timestamp in the union of the two inputs'
timestamp sets appears in the output; but a value cell on the side that
lacks that timestamp is null (`NaN`), not zero — in particular a row whose
timestamp is absent from the total side has a null `total_generation`
cell and hence a null `thermal_and_other` cell. -/
theorem C1_amended_outer_union_null_cells (R T : WTable) :
    (∀ t : Int, t ∈ (merge_generation_data R T).tsList ↔
      t ∈ R.tsList ∨ t ∈ T.tsList) ∧
    (∀ rr ∈ R.rows, rr.ts ∉ T.tsList →
      (∀ c ∈ R.cols, c ∉ T.cols) →
      "total_generation" ∉ rr.cells.map Prod.fst →
      "total_generation" ∈ T.cols →
      ∃ mr ∈ (merge_generation_data R T).rows, mr.ts = rr.ts ∧
        WRow.get mr "total_generation" = none ∧
        WRow.get mr "thermal_and_other" = none) := by
  constructor
  · intro t
    have h1 : (merge_generation_data R T).tsList =
        (mergeOn R T How.outer).tsList :=
      tsList_deriveThermal (mergeOn R T How.outer)
    rw [h1]
    exact tsList_mergeOn_outer R T t
  · intro rr hrr hts hdisj hname hTtg
    have hshared : mergeShared R T = [] := by
      apply List.filter_eq_nil_iff.mpr
      intro c hc hb
      exact hdisj c hc (by simpa using hb)
    have hsuf : suffixCells (mergeShared R T) "_x" rr.cells = rr.cells := by
      rw [hshared]
      simp [suffixCells, suffixShared]
    have hlrow : WRow.mk rr.ts (suffixCells (mergeShared R T) "_x" rr.cells) ∈
        mergeLeftOnly R T := by
      apply List.mem_map_of_mem
      apply List.mem_filter.mpr
      refine ⟨hrr, ?_⟩
      simp only [Bool.not_eq_true', List.any_eq_false, beq_iff_eq]
      intro rb hrb hbeq
      exact hts (List.mem_map.mpr ⟨rb, hrb, hbeq⟩)
    have hmem : WRow.mk rr.ts (suffixCells (mergeShared R T) "_x" rr.cells) ∈
        (mergeOn R T How.outer).rows := by
      show _ ∈ sortLe (fun a b => decide (a.ts ≤ b.ts))
        (mergeMatched R T ++ mergeLeftOnly R T ++ mergeRightOnly R T)
      rw [mem_sortLe]
      exact List.mem_append.mpr (Or.inl (List.mem_append.mpr (Or.inr hlrow)))
    set M := mergeOn R T How.outer with hM
    set lrow := WRow.mk rr.ts (suffixCells (mergeShared R T) "_x" rr.cells)
      with hlr
    have hlget : lrow.cells.lookup "total_generation" = none := by
      rw [hlr]
      show (suffixCells (mergeShared R T) "_x" rr.cells).lookup
        "total_generation" = none
      rw [hsuf]
      exact lookup_not_mem rr.cells "total_generation" hname
    refine ⟨WRow.mk lrow.ts (setCell lrow.cells "thermal_and_other"
      (subQCell (dfGet M "total_generation" 0 lrow)
        (dfGet M "renewables_total" 0 lrow))), ?_, rfl, ?_, ?_⟩
    · exact List.mem_map_of_mem _ hmem
    · show WRow.get _ "total_generation" = none
      unfold WRow.get
      rw [lookup_setCell_ne _ _ _ _ (by decide)]
      rw [hlget]
    · have hdf : dfGet M "total_generation" 0 lrow = none := by
        have hcol : "total_generation" ∈ M.cols := by
          rw [hM]
          show _ ∈ mergeCols R T
          unfold mergeCols
          refine List.mem_append.mpr (Or.inr (List.mem_map.mpr
            ⟨"total_generation", hTtg, ?_⟩))
          rw [hshared]
          simp [suffixShared]
        rw [dfGet, if_pos hcol]
        unfold WRow.get
        rw [hlget]
      show WRow.get _ "thermal_and_other" = none
      unfold WRow.get
      rw [lookup_setCell_self, hdf]
      rfl

/-- C1 witness: the amended behaviour at the concrete disjoint tables. -/
theorem C1_amended_witness :
    ∃ mr ∈ (merge_generation_data renTable1 totTable2).rows,
      mr.ts = (WRow.mk 1 [("renewables_total", some 8)]).ts ∧
      WRow.get mr "total_generation" = none ∧
      WRow.get mr "thermal_and_other" = none :=
  (C1_amended_outer_union_null_cells renTable1 totTable2).2
    (WRow.mk 1 [("renewables_total", some 8)]) (by decide) (by decide)
    (by decide) (by decide) (by decide)

/-! ## Claim C4 -/

/-- C4: the derivation step of the merged generation table is total — it
always produces one `thermal_and_other` cell per row, computed as
`total_generation` minus `renewables_total` with a column absent from the
table contributing the scalar zero; in particular, when the subcomponent
column `renewables_total` is absent, the residual cell equals the
`total_generation` cell of the same row. -/
theorem C4_derivation_total_absent_is_zero (t : WTable) :
    ((deriveThermal t).rows.length = t.rows.length) ∧
    (∀ r ∈ t.rows, ∃ rd ∈ (deriveThermal t).rows, rd.ts = r.ts ∧
      WRow.get rd "thermal_and_other" =
        subQCell (dfGet t "total_generation" 0 r)
          (dfGet t "renewables_total" 0 r)) ∧
    ("renewables_total" ∉ t.cols → "total_generation" ∈ t.cols →
      ∀ r ∈ t.rows, ∃ rd ∈ (deriveThermal t).rows, rd.ts = r.ts ∧
        WRow.get rd "thermal_and_other" = WRow.get r "total_generation") := by
  have hbase : ∀ r ∈ t.rows, ∃ rd ∈ (deriveThermal t).rows, rd.ts = r.ts ∧
      WRow.get rd "thermal_and_other" =
        subQCell (dfGet t "total_generation" 0 r)
          (dfGet t "renewables_total" 0 r) := by
    intro r hr
    refine ⟨WRow.mk r.ts (setCell r.cells "thermal_and_other"
      (subQCell (dfGet t "total_generation" 0 r)
        (dfGet t "renewables_total" 0 r))), ?_, rfl, ?_⟩
    · exact List.mem_map_of_mem _ hr
    · unfold WRow.get
      rw [lookup_setCell_self]
  refine ⟨by simp [deriveThermal], hbase, ?_⟩
  intro hren htot r hr
  obtain ⟨rd, hrd, hrts, hrval⟩ := hbase r hr
  refine ⟨rd, hrd, hrts, ?_⟩
  rw [hrval]
  unfold dfGet
  rw [if_pos htot, if_neg hren]
  cases hc : WRow.get r "total_generation" with
  | none => rfl
  | some a => simp [subQCell]

/-- C4 witness: on a merged table carrying only `total_generation`
(every subcomponent column absent), the derived residual equals the total
cell. -/
theorem C4_witness :
    ∃ rd ∈ (deriveThermal totOnlyTable).rows, rd.ts = totOnlyRow.ts ∧
      WRow.get rd "thermal_and_other" =
        WRow.get totOnlyRow "total_generation" :=
  (C4_derivation_total_absent_is_zero totOnlyTable).2.2 (by decide)
    (by decide) totOnlyRow (by decide)

/-! ## Claim C5 -/

/-- C5: for every pair of wide tables, the inner join's timestamp set is
exactly the intersection of the two inputs' timestamp sets (non-matching
rows are dropped, with no error path), and the outer join's is exactly the
union; concretely, inner-joining key sets {1,2,3} and {2,3,4} yields
exactly {2,3}, and outer-joining them yields exactly {1,2,3,4}. -/
theorem C5_join_policy_key_sets :
    (∀ (A B : WTable) (t : Int),
      (t ∈ (mergeOn A B How.inner).tsList ↔
        t ∈ A.tsList ∧ t ∈ B.tsList) ∧
      (t ∈ (mergeOn A B How.outer).tsList ↔
        t ∈ A.tsList ∨ t ∈ B.tsList)) ∧
    (mergeOn tableA123 tableB234 How.inner).tsList = [2, 3] ∧
    (mergeOn tableA123 tableB234 How.outer).tsList = [1, 2, 3, 4] := by
  refine ⟨fun A B t =>
    ⟨tsList_mergeOn_inner A B t, tsList_mergeOn_outer A B t⟩, ?_, ?_⟩
  · decide
  · decide

/-! ## Claim C3 -/

/-- C3 counterexample: two wide tables sharing the non-key column name
`v` are joined with no error of any kind: the join totally produces an
output table in which the shared name has been silently renamed to
`v_x`/`v_y` (the pandas default suffixes), so the claimed fail-fast
JoinCollision behaviour does not exist and the original column name is
silently lost. -/
theorem C3_counterexample :
    mergeOn leftV rightV How.inner =
      WTable.mk ["v_x", "v_y"]
        [WRow.mk 1 [("v_x", some 2), ("v_y", some 3)]] ∧
    "v" ∉ (mergeOn leftV rightV How.inner).cols := by
  constructor
  · decide
  · decide

/-- C3 amended: the Join Stage never fails on duplicate non-key column
names; for either join policy it produces an output in which every column
name occurring on both sides appears silently renamed with the pandas
default suffixes, as `c_x` and `c_y`. -/
theorem C3_amended_collision_suffixes (A B : WTable) (how : How)
    (c : String) (hA : c ∈ A.cols) (hB : c ∈ B.cols) :
    (c ++ "_x") ∈ (mergeOn A B how).cols ∧
    (c ++ "_y") ∈ (mergeOn A B how).cols := by
  have hcols : (mergeOn A B how).cols = mergeCols A B := by
    cases how <;> rfl
  have hshared : c ∈ mergeShared A B := by
    simp [mergeShared, List.mem_filter, hA, hB]
  rw [hcols]
  unfold mergeCols
  constructor
  · exact List.mem_append.mpr (Or.inl (List.mem_map.mpr
      ⟨c, hA, by simp [suffixShared, hshared]⟩))
  · exact List.mem_append.mpr (Or.inr (List.mem_map.mpr
      ⟨c, hB, by simp [suffixShared, hshared]⟩))

/-- C3 witness: the amended collision behaviour at the concrete collision
input. -/
theorem C3_amended_witness :
    ("v" ++ "_x") ∈ (mergeOn leftV rightV How.inner).cols ∧
    ("v" ++ "_y") ∈ (mergeOn leftV rightV How.inner).cols :=
  C3_amended_collision_suffixes leftV rightV How.inner "v"
    (by decide) (by decide)

/-! ## Claim C8 -/

/-- C8: when the final join is reached (the four price columns exist, so
the column selection does not raise) and its two inputs share no
timestamp, the pipeline still returns a result rather than an error: the
combined table has zero rows, and the aggregated LMP table is surfaced
unchanged as the second output. -/
theorem C8_disjoint_inner_join_empty (dfLmp : LmpTable)
    (dfGeneration : WTable)
    (hcols : ∀ c ∈ lmpValueCols, c ∈ dfLmp.cols)
    (hdisj : ∀ t ∈ dfLmp.rows.map LmpRow.ts, t ∉ dfGeneration.tsList) :
    ∃ sel, lmpSelect dfLmp = some sel ∧
      merge_lmp_with_generation dfLmp dfGeneration =
        some (WTable.mk (mergeCols (lmpAggregate sel) dfGeneration) [],
          lmpAggregate sel) := by
  have hsel : lmpSelect dfLmp = some (WTable.mk lmpValueCols
      (dfLmp.rows.map (fun r =>
        WRow.mk r.ts (lmpValueCols.map (fun c => (c, LmpRow.get r c)))))) := by
    unfold lmpSelect
    rw [if_pos hcols]
  refine ⟨_, hsel, ?_⟩
  set sel := WTable.mk lmpValueCols
    (dfLmp.rows.map (fun r =>
      WRow.mk r.ts (lmpValueCols.map (fun c => (c, LmpRow.get r c)))))
    with hseldef
  have hts : sel.rows.map WRow.ts = dfLmp.rows.map LmpRow.ts := by
    rw [hseldef]
    show (dfLmp.rows.map _).map WRow.ts = _
    rw [List.map_map]
    rfl
  have hm : mergeMatched (lmpAggregate sel) dfGeneration = [] := by
    apply List.flatMap_eq_nil_iff.mpr
    intro ra hra
    have hrats : ra.ts ∈ dfLmp.rows.map LmpRow.ts := by
      obtain ⟨t0, ht0, rfl⟩ := List.mem_map.mp hra
      exact hts ▸ List.mem_dedup.mp ht0
    have hfil : dfGeneration.rows.filter (fun rb => rb.ts == ra.ts) = [] := by
      apply List.filter_eq_nil_iff.mpr
      intro rb hrb hbeq
      exact hdisj ra.ts hrats (List.mem_map.mpr ⟨rb, hrb, by simpa using hbeq⟩)
    rw [hfil]
    rfl
  unfold merge_lmp_with_generation
  rw [hsel, Option.map_some']
  have hrows : (mergeOn (lmpAggregate sel) dfGeneration How.inner).rows =
      mergeMatched (lmpAggregate sel) dfGeneration := rfl
  have hcols2 : (mergeOn (lmpAggregate sel) dfGeneration How.inner).cols =
      mergeCols (lmpAggregate sel) dfGeneration := rfl
  show some (WTable.mk
      (mergeOn (lmpAggregate sel) dfGeneration How.inner).cols
      (sortLe (fun a b => decide (a.ts ≤ b.ts))
        (mergeOn (lmpAggregate sel) dfGeneration How.inner).rows),
    lmpAggregate sel) = _
  rw [hrows, hm, hcols2]
  rfl

/-- C8 witness: a concrete LMP table (timestamp 1, all four price columns
present) and generation table (timestamp 2) with no overlap: the
selection succeeds and the merged result has zero rows. -/
theorem C8_witness :
    ∃ sel, lmpSelect lmpTable1 = some sel ∧
      merge_lmp_with_generation lmpTable1 totTable2 =
        some (WTable.mk (mergeCols (lmpAggregate sel) totTable2) [],
          lmpAggregate sel) :=
  C8_disjoint_inner_join_empty lmpTable1 totTable2 (by decide) (by decide)

/-! ## Claim C9 -/

/-- C9: a pre-filter matching zero rows of a non-empty Raw Table is not an
error: the renewable stage (whose filter conjoins the window bound with
the `MARKET_RUN_ID == "RTD"` equality) and the LMP stage (window bound)
both return a wide table with zero rows. -/
theorem C9_empty_selection :
    (∀ (raws : List RenRow) (start : Int), raws ≠ [] →
      (∀ r ∈ raws, ¬(start ≤ r.ts ∧ r.market_run_id = "RTD")) →
      (process_renewable_data raws start).rows = []) ∧
    (∀ (raws : List LmpRaw) (start : Int), raws ≠ [] →
      (∀ r ∈ raws, ¬(start ≤ r.ts)) →
      (process_lmp_data raws start).rows = []) := by
  constructor
  · intro raws start _ h
    have hf : renFilter raws start = [] := by
      apply List.filter_eq_nil_iff.mpr
      intro r hr hb
      exact h r hr (by simpa [Bool.and_eq_true, decide_eq_true_eq,
        beq_iff_eq] using hb)
    simp [process_renewable_data, fillna0, addRenewablesTotal, renPivot,
      renTss, renCats, renAgg, renKeys, hf]
  · intro raws start _ h
    have hf : lmpFilter raws start = [] := by
      apply List.filter_eq_nil_iff.mpr
      intro r hr hb
      exact h r hr (by simpa [decide_eq_true_eq] using hb)
    simp [process_lmp_data, lmpPivot, lmpKeys, lmpCats, hf, sortLe]

/-- C9 witness: a non-empty renewable feed whose only row fails the RTD
equality filter, and a non-empty LMP feed whose only row predates the
window, both yield zero-row tables. -/
theorem C9_witness :
    (process_renewable_data damRenRaws 50).rows = [] ∧
    (process_lmp_data staleLmpRaws 0).rows = [] :=
  ⟨C9_empty_selection.1 damRenRaws 50 (by decide) (by decide),
   C9_empty_selection.2 staleLmpRaws 0 (by decide) (by decide)⟩

/-! ## Claim C7 -/

/-- C7: in the LMP pivot with `aggfunc="first"`, the cell of the output
row keyed by (timestamp, NODE) under category column `c` is exactly the
`MW` of the first filtered raw row (in original input order) mapping to
that (timestamp, NODE, category) triple — later duplicates are discarded
and no arithmetic aggregation is performed; a category with no matching
raw row is `NaN`. -/
theorem C7_pivot_table_first_wins (raws : List LmpRaw) (start t : Int)
    (n c : String) (pr : LmpRow)
    (hpr : pr ∈ (lmpPivot (lmpFilter raws start)).rows)
    (hts : pr.ts = t) (hhub : pr.hub = some n) :
    LmpRow.get pr c =
      ((lmpFilter raws start).find? (fun r =>
        (r.ts == t) && (r.node == n) && (r.lmp_type == c))).map
          LmpRaw.mw := by
  obtain ⟨k, hk, rfl⟩ := List.mem_map.mp hpr
  obtain ⟨t0, n0⟩ := k
  have ht0 : t0 = t := hts
  have hn0 : n0 = n := by simpa using hhub
  subst ht0
  subst hn0
  unfold LmpRow.get
  rw [lookup_map_key]
  by_cases hc : c ∈ lmpCats (lmpFilter raws start)
  · rw [if_pos hc]
    rw [find_eq_headFilter]
    rfl
  · rw [if_neg hc]
    have hfind : (lmpFilter raws start).find? (fun r =>
        (r.ts == t0) && (r.node == n0) && (r.lmp_type == c)) = none := by
      apply List.find?_eq_none.mpr
      intro x hx hpred
      apply hc
      have hx2 : x.lmp_type = c := by
        simp only [Bool.and_eq_true, beq_iff_eq] at hpred
        exact hpred.2
      exact List.mem_dedup.mpr (hx2 ▸ List.mem_map_of_mem LmpRaw.lmp_type hx)
    rw [hfind]
    rfl

/-- C7 witness: two filtered rows map to the triple (1, N, LMP) with MW
values 5 then 7; the pivot keeps 5, the first in input order. -/
theorem C7_witness :
    LmpRow.get (LmpRow.mk 1 (some "N") [("LMP", some 5)]) "LMP" = some 5 := by
  have h := C7_pivot_table_first_wins dupTripleLmpRaws 0 1 "N" "LMP"
    (LmpRow.mk 1 (some "N") [("LMP", some 5)]) (by decide) (by decide)
    (by decide)
  rw [h]
  decide

/-! ## Structure of the processed LMP table -/

theorem process_lmp_pairs_perm (raws : List LmpRaw) (start : Int) :
    ((process_lmp_data raws start).rows.map (fun r => (r.ts, r.hub))).Perm
      ((lmpKeys (lmpFilter raws start)).map (fun k =>
        (k.1, CONFIG_nodes.lookup k.2))) := by
  unfold process_lmp_data
  have h2 := (sortLe_perm lmpRowLe
    ((lmpPivot (lmpFilter raws start)).rows.map (fun r =>
      LmpRow.mk r.ts (mapHub r.hub)
        (r.cells.map (fun q => (lmpRename q.1, q.2)))))).map
    (fun r : LmpRow => (r.ts, r.hub))
  refine h2.trans ?_
  simp only [lmpPivot, List.map_map]
  exact (List.map_congr_left fun k _ => rfl) ▸ List.Perm.refl _

/-! ## Claim C2 -/

/-- C2 counterexample: a raw LMP row whose NODE identifier `FOO` is not a
key of the configured label map is not passed through unchanged: the
row survives (one output row), but its hub value is null (`NaN`), and no
output row carries the identifier `FOO`. -/
theorem C2_counterexample :
    (process_lmp_data fooLmpRaws 0).rows.map LmpRow.hub = [none] ∧
    some "FOO" ∉ (process_lmp_data fooLmpRaws 0).rows.map LmpRow.hub ∧
    (process_lmp_data fooLmpRaws 0).rows.length = 1 := by
  refine ⟨?_, ?_, ?_⟩
  · decide
  · decide
  · decide

/-- C2 amended: the rename step drops no rows — the output has exactly one
row per distinct (timestamp, NODE) pair of the filtered input — and each
output row's hub is the label-map image of its NODE: the configured label
for mapped identifiers, and null (`NaN`), not the unchanged identifier,
for unmapped ones. -/
theorem C2_amended_unmapped_become_nan (raws : List LmpRaw) (start : Int) :
    ((process_lmp_data raws start).rows.map (fun r => (r.ts, r.hub))).Perm
      ((lmpKeys (lmpFilter raws start)).map (fun k =>
        (k.1, CONFIG_nodes.lookup k.2))) ∧
    (process_lmp_data raws start).rows.length =
      (lmpKeys (lmpFilter raws start)).length := by
  refine ⟨process_lmp_pairs_perm raws start, ?_⟩
  have h := (process_lmp_pairs_perm raws start).length_eq
  simpa using h

/-! ## Claim C6 -/

/-- C6 counterexample: two raw rows at the same timestamp whose NODEs are
both outside the configured label map are collapsed by `Series.map` to
the same null hub, so the pivoted-then-renamed LMP table contains two rows
with the identical (timestamp, hub) pair. -/
theorem C6_counterexample :
    ¬ ((process_lmp_data dupNodeLmpRaws 0).rows.map
        (fun r => (r.ts, r.hub))).Nodup := by
  decide

/-- C6 amended: the pivoted LMP table has unique (timestamp, NODE) keys,
and the (timestamp, hub) pairs after renaming are unique whenever the
label map acts injectively on the nodes present (in particular whenever
all nodes are configured ones); the aggregated renewable and
total-generation tables always have unique timestamps. -/
theorem C6_amended_unique_composite_keys :
    (∀ (raws : List LmpRaw) (start : Int),
      ((lmpPivot (lmpFilter raws start)).rows.map
        (fun r => (r.ts, r.hub))).Nodup) ∧
    (∀ (raws : List LmpRaw) (start : Int),
      (∀ n1 ∈ (lmpFilter raws start).map LmpRaw.node,
        ∀ n2 ∈ (lmpFilter raws start).map LmpRaw.node,
          CONFIG_nodes.lookup n1 = CONFIG_nodes.lookup n2 → n1 = n2) →
      ((process_lmp_data raws start).rows.map
        (fun r => (r.ts, r.hub))).Nodup) ∧
    (∀ (raws : List RenRow) (start : Int),
      (process_renewable_data raws start).tsList.Nodup) ∧
    (∀ (raws : List GenRow) (start : Int),
      (process_total_generation_data raws start).tsList.Nodup) := by
  refine ⟨?_, ?_, ?_, ?_⟩
  · intro raws start
    show (((lmpKeys (lmpFilter raws start)).map _).map _).Nodup
    rw [List.map_map]
    apply (List.nodup_dedup _).map_on
    intro x _ y _ hxy
    obtain ⟨x1, x2⟩ := x
    obtain ⟨y1, y2⟩ := y
    simpa using hxy
  · intro raws start hinj
    have htarget : ((lmpKeys (lmpFilter raws start)).map (fun k =>
        (k.1, CONFIG_nodes.lookup k.2))).Nodup := by
      apply (List.nodup_dedup _).map_on
      intro x hx y hy hxy
      have hxn : x.2 ∈ (lmpFilter raws start).map LmpRaw.node := by
        obtain ⟨r, hr, hrx⟩ := List.mem_map.mp (List.mem_dedup.mp hx)
        exact List.mem_map.mpr ⟨r, hr, congrArg Prod.snd hrx⟩
      have hyn : y.2 ∈ (lmpFilter raws start).map LmpRaw.node := by
        obtain ⟨r, hr, hry⟩ := List.mem_map.mp (List.mem_dedup.mp hy)
        exact List.mem_map.mpr ⟨r, hr, congrArg Prod.snd hry⟩
      obtain ⟨x1, x2⟩ := x
      obtain ⟨y1, y2⟩ := y
      simp only [Prod.mk.injEq] at hxy
      exact Prod.ext hxy.1 (hinj x2 hxn y2 hyn hxy.2)
    exact (process_lmp_pairs_perm raws start).symm.nodup htarget
  · intro raws start
    have h : (process_renewable_data raws start).tsList =
        renTss raws start := by
      simp [process_renewable_data, fillna0, addRenewablesTotal, renPivot,
        WTable.tsList, List.map_map, Function.comp_def]
    rw [h]
    exact List.nodup_dedup _
  · intro raws start
    have h : (process_total_generation_data raws start).tsList =
        genTss raws start := by
      simp [process_total_generation_data, WTable.tsList, List.map_map,
        Function.comp_def]
    rw [h]
    exact List.nodup_dedup _

/-- C6 witness: both configured nodes at the same timestamp map to
distinct hub labels, so the output composite keys are unique. -/
theorem C6_amended_witness :
    ((process_lmp_data mappedLmpRaws 0).rows.map
      (fun r => (r.ts, r.hub))).Nodup :=
  C6_amended_unique_composite_keys.2.1 mappedLmpRaws 0 (by decide)

/-! ## Structure of the aggregated renewable table -/

theorem perturbRow_ts (g : RenRow → ℚ) (r : RenRow) :
    (perturbRow g r).ts = r.ts := by
  unfold perturbRow
  split <;> rfl

theorem perturbRow_market (g : RenRow → ℚ) (r : RenRow) :
    (perturbRow g r).market_run_id = r.market_run_id := by
  unfold perturbRow
  split <;> rfl

theorem perturbRow_type (g : RenRow → ℚ) (r : RenRow) :
    (perturbRow g r).renewable_type = r.renewable_type := by
  unfold perturbRow
  split <;> rfl

theorem renFilter_perturb (g : RenRow → ℚ) (raws : List RenRow)
    (start : Int) :
    renFilter (perturbOther g raws) start =
      (renFilter raws start).map (perturbRow g) := by
  unfold perturbOther renFilter
  rw [List.filter_map]
  exact congrArg _ (List.filter_congr (fun r _ => by
    simp [Function.comp, perturbRow_ts, perturbRow_market]))

theorem renKeys_perturb (g : RenRow → ℚ) (raws : List RenRow)
    (start : Int) :
    renKeys (perturbOther g raws) start = renKeys raws start := by
  unfold renKeys
  rw [renFilter_perturb, List.map_map]
  exact congrArg List.dedup (List.map_congr_left (fun r _ => by
    simp [Function.comp, perturbRow_ts, perturbRow_type]))

theorem renSum_perturb (g : RenRow → ℚ) (raws : List RenRow) (start : Int)
    (k : Int × String) (hk : k.2 = "Solar" ∨ k.2 = "Wind") :
    renSum (perturbOther g raws) start k = renSum raws start k := by
  unfold renSum
  rw [renFilter_perturb, List.filter_map]
  have hpred : (renFilter raws start).filter
      ((fun r => (r.ts == k.1) && (r.renewable_type == k.2)) ∘
        perturbRow g) =
      (renFilter raws start).filter
        (fun r => (r.ts == k.1) && (r.renewable_type == k.2)) :=
    List.filter_congr (fun r _ => by
      simp [Function.comp, perturbRow_ts, perturbRow_type])
  rw [hpred, List.map_map]
  refine congrArg List.sum ?_
  apply List.map_congr_left
  intro r hr
  have htype : r.renewable_type = k.2 := by
    have hq := (List.mem_filter.mp hr).2
    simp only [Bool.and_eq_true, beq_iff_eq] at hq
    exact hq.2
  have hfix : perturbRow g r = r := by
    unfold perturbRow
    rw [if_pos (htype ▸ hk)]
  show RenRow.mw (perturbRow g r) = RenRow.mw r
  rw [hfix]

theorem renTss_eq_keys (raws : List RenRow) (start : Int) :
    renTss raws start = ((renKeys raws start).map Prod.fst).dedup := by
  unfold renTss renAgg
  rw [List.map_map]
  rfl

theorem renCats_eq_keys (raws : List RenRow) (start : Int) :
    renCats raws start = ((renKeys raws start).map Prod.snd).dedup := by
  unfold renCats renAgg
  rw [List.map_map]
  rfl

theorem renTss_perturb (g : RenRow → ℚ) (raws : List RenRow)
    (start : Int) :
    renTss (perturbOther g raws) start = renTss raws start := by
  rw [renTss_eq_keys, renTss_eq_keys, renKeys_perturb]

theorem renCats_perturb (g : RenRow → ℚ) (raws : List RenRow)
    (start : Int) :
    renCats (perturbOther g raws) start = renCats raws start := by
  rw [renCats_eq_keys, renCats_eq_keys, renKeys_perturb]

theorem renGet0_perturb (g : RenRow → ℚ) (raws : List RenRow)
    (start t : Int) (c : String) (hc : c = "Solar" ∨ c = "Wind") :
    renGet0 (perturbOther g raws) start t c = renGet0 raws start t c := by
  unfold renGet0
  rw [renCats_perturb]
  by_cases hm : c ∈ renCats raws start
  · rw [if_pos hm, if_pos hm]
    unfold renAgg
    rw [renKeys_perturb, lookup_map_key, lookup_map_key]
    by_cases hk : (t, c) ∈ renKeys raws start
    · rw [if_pos hk, if_pos hk, renSum_perturb g raws start (t, c) hc]
    · rw [if_neg hk, if_neg hk]
  · rw [if_neg hm, if_neg hm]

theorem renewTotal_closed (raws : List RenRow) (start : Int) :
    (process_renewable_data raws start).rows.map
      (fun r => (r.ts, WRow.get r "renewables_total")) =
    (renTss raws start).map (fun t =>
      (t, fillCell (addQCell (renGet0 raws start t "Solar")
        (renGet0 raws start t "Wind")))) := by
  unfold process_renewable_data fillna0 addRenewablesTotal renPivot
  simp only [List.map_map]
  apply List.map_congr_left
  intro t _
  refine Prod.ext rfl ?_
  show WRow.get _ "renewables_total" = _
  unfold WRow.get
  simp only [Function.comp]
  have hget : ∀ c : String,
      dfGet (WTable.mk (renCats raws start)
        ((renTss raws start).map (fun t0 =>
          WRow.mk t0 ((renCats raws start).map (fun c0 =>
            (c0, (renAgg raws start).lookup (t0, c0)))))))
        c 0
        (WRow.mk t ((renCats raws start).map (fun c0 =>
          (c0, (renAgg raws start).lookup (t, c0))))) =
      renGet0 raws start t c := by
    intro c
    unfold dfGet renGet0
    by_cases hm : c ∈ renCats raws start
    · rw [if_pos hm, if_pos hm]
      unfold WRow.get
      rw [lookup_map_key, if_pos hm]
    · rw [if_neg hm, if_neg hm]
  rw [lookup_map_snd, lookup_setCell_self, Option.map_some', hget, hget]

theorem process_ren_cols (raws : List RenRow) (start : Int) :
    (process_renewable_data raws start).cols =
      setCol (renCats raws start) "renewables_total" := rfl

/-! ## Claim C10 -/

/-- C10: the derived `renewables_total` column depends on exactly the
Solar and Wind columns (absent columns contributing zero): arbitrarily
changing the MW values of raw rows of any other category leaves the
column set and the whole `renewables_total` column unchanged; every
category observed in the filtered input does appear as its own output
column; and on the worked example (Solar 5, Wind 3, Geothermal 7,
total 12) the output has a Geothermal column, `renewables_total = 8`
(excluding Geothermal), and the merged residual `thermal_and_other = 4`
(so Geothermal is counted inside the residual). -/
theorem C10_renewables_total_is_solar_plus_wind :
    (∀ (g : RenRow → ℚ) (raws : List RenRow) (start : Int),
      (process_renewable_data (perturbOther g raws) start).cols =
        (process_renewable_data raws start).cols) ∧
    (∀ (g : RenRow → ℚ) (raws : List RenRow) (start : Int),
      (process_renewable_data (perturbOther g raws) start).rows.map
          (fun r => (r.ts, WRow.get r "renewables_total")) =
        (process_renewable_data raws start).rows.map
          (fun r => (r.ts, WRow.get r "renewables_total"))) ∧
    (∀ (raws : List RenRow) (start : Int) (c : String),
      c ∈ (renFilter raws start).map RenRow.renewable_type →
      c ∈ (process_renewable_data raws start).cols) ∧
    ("Geothermal" ∈ (process_renewable_data exRen 0).cols ∧
      (process_renewable_data exRen 0).rows.map
        (fun r => WRow.get r "renewables_total") = [some 8] ∧
      (merge_generation_data (process_renewable_data exRen 0)
        (process_total_generation_data exTot 0)).rows.map
          (fun r => WRow.get r "thermal_and_other") = [some 4]) := by
  refine ⟨?_, ?_, ?_, ?_⟩
  · intro g raws start
    rw [process_ren_cols, process_ren_cols, renCats_perturb]
  · intro g raws start
    rw [renewTotal_closed, renewTotal_closed, renTss_perturb]
    apply List.map_congr_left
    intro t _
    rw [renGet0_perturb g raws start t "Solar" (Or.inl rfl),
      renGet0_perturb g raws start t "Wind" (Or.inr rfl)]
  · intro raws start c hc
    have hcat : c ∈ renCats raws start := by
      rw [renCats_eq_keys]
      apply List.mem_dedup.mpr
      obtain ⟨r, hr, rfl⟩ := List.mem_map.mp hc
      refine List.mem_map.mpr ⟨(r.ts, r.renewable_type), ?_, rfl⟩
      unfold renKeys
      exact List.mem_dedup.mpr (List.mem_map_of_mem _ hr)
    rw [process_ren_cols]
    unfold setCol
    by_cases hrt : c = "renewables_total"
    · subst hrt
      exact List.mem_append.mpr (Or.inr (List.mem_singleton.mpr rfl))
    · refine List.mem_append.mpr (Or.inl (List.mem_filter.mpr
        ⟨hcat, ?_⟩))
      simpa using hrt
  · have hk : renKeys exRen 0 =
        [(10, "Solar"), (10, "Wind"), (10, "Geothermal")] := by decide
    have hs1 : renSum exRen 0 (10, "Solar") = 5 := by
      simp +decide [renSum, renFilter, exRen, List.filter_cons,
        List.filter_nil, List.map_cons, List.map_nil, List.sum_cons,
        List.sum_nil]
    have hs2 : renSum exRen 0 (10, "Wind") = 3 := by
      simp +decide [renSum, renFilter, exRen, List.filter_cons,
        List.filter_nil, List.map_cons, List.map_nil, List.sum_cons,
        List.sum_nil]
    have hs3 : renSum exRen 0 (10, "Geothermal") = 7 := by
      simp +decide [renSum, renFilter, exRen, List.filter_cons,
        List.filter_nil, List.map_cons, List.map_nil, List.sum_cons,
        List.sum_nil]
    have h2 : process_renewable_data exRen 0 =
        WTable.mk ["Solar", "Wind", "Geothermal", "renewables_total"]
          [WRow.mk 10 [("Solar", some 5), ("Wind", some 3),
            ("Geothermal", some 7), ("renewables_total", some 8)]] := by
      simp +decide [process_renewable_data, renPivot, renTss, renCats, hk,
        renAgg, addRenewablesTotal, fillna0, setCell, setCol, dfGet,
        addQCell, fillCell, WRow.get, List.filter_cons, List.filter_nil,
        List.map_cons, List.map_nil, List.dedup_cons_of_not_mem,
        List.dedup_nil, List.mem_cons, List.not_mem_nil, List.lookup,
        List.append_nil, List.cons_append, List.nil_append,
        beq_self_eq_true, beq_false_of_ne]
      refine ⟨hs1, hs2, hs3, ?_⟩
      rw [hs1, hs2]
      norm_num
    have h3 : process_total_generation_data exTot 0 =
        WTable.mk ["total_generation"]
          [WRow.mk 10 [("total_generation", some 12)]] := by
      have hg : genTss [GenRow.mk 10 "Caiso_Totals" "ALL" 12] 0 = [10] :=
        by decide
      simp +decide [process_total_generation_data, hg, genFilter, exTot,
        List.filter_cons, List.filter_nil, List.map_cons, List.map_nil,
        List.sum_cons, List.sum_nil]
    refine ⟨by rw [h2]; decide, by rw [h2]; decide, ?_⟩
    rw [h2, h3]
    have h4 : merge_generation_data
        (WTable.mk ["Solar", "Wind", "Geothermal", "renewables_total"]
          [WRow.mk 10 [("Solar", some 5), ("Wind", some 3),
            ("Geothermal", some 7), ("renewables_total", some 8)]])
        (WTable.mk ["total_generation"]
          [WRow.mk 10 [("total_generation", some 12)]]) =
        WTable.mk ["Solar", "Wind", "Geothermal", "renewables_total",
            "total_generation", "thermal_and_other"]
          [WRow.mk 10 [("Solar", some 5), ("Wind", some 3),
            ("Geothermal", some 7), ("renewables_total", some 8),
            ("total_generation", some 12),
            ("thermal_and_other", some 4)]] := by
      simp +decide [merge_generation_data, deriveThermal, mergeOn,
        mergeCols, mergeShared, mergeMatched, mergeLeftOnly,
        mergeRightOnly, suffixCells, suffixShared, setCell, setCol, dfGet,
        subQCell, WRow.get, sortLe, insertLe, List.filter_cons,
        List.filter_nil, List.map_cons, List.map_nil, List.flatMap_cons,
        List.flatMap_nil, List.any_cons, List.any_nil, List.mem_cons,
        List.not_mem_nil, List.lookup, List.append_nil, List.cons_append,
        List.nil_append, beq_self_eq_true, beq_false_of_ne]
      norm_num
    rw [h4]
    decide

/-- C10 witness: the observed third category Geothermal of the worked
example appears as its own output column. -/
theorem C10_witness :
    "Geothermal" ∈ (process_renewable_data exRen 0).cols :=
  C10_renewables_total_is_solar_plus_wind.2.2.1 exRen 0 "Geothermal"
    (by decide)

end Caiso
